import Mathlib

/-!
Shallow embedding of the client-side canvas baseball-card generator
(`ClientCanvasGenerator` in `src/lib/referenceImages.ts`).

JavaScript numbers are modelled as exact rationals (`ℚ`); `Math.floor` is
`Int.floor`; `Math.random()` draws are modelled as an explicit input stream
`Nat → ℚ` consumed at explicit positions, in the order the code consumes
them.  Canvas painting is modelled as a trace of drawing operations.
-/

namespace CardGen

/-- Constant `CARD_DIMENSIONS.width` (750 = 2.5in × 300dpi). -/
def cardWidth : ℚ := 750

/-- Constant `CARD_DIMENSIONS.height` (1050 = 3.5in × 300dpi). -/
def cardHeight : ℚ := 1050

/-- Constant `CARD_DIMENSIONS.safeMargin` (75 = 0.25in safe margin). -/
def safeMargin : ℚ := 75

/-- An axis-aligned rectangle `{x, y, width, height}`. -/
structure Rect where
  x : ℚ
  y : ℚ
  w : ℚ
  h : ℚ
  deriving DecidableEq

/-- The safe-margin inset rectangle: `innerBox` as recomputed at the top of
`renderPlayerImageContainer`, `renderPlayerInformationContainer`,
`renderPlayerLogoContainer`, `renderPlayerImage`, `renderTeamInformation`
and `renderPlayerInformation`. -/
def innerBox : Rect :=
  { x := safeMargin
    y := safeMargin
    w := cardWidth - 2 * safeMargin
    h := cardHeight - 2 * safeMargin }

/-- Value `contentHeightForContainers = innerBoxHeight - safeMargin`. -/
def contentHeightForContainers : ℚ := innerBox.h - safeMargin

/-- The player-image container box (`renderPlayerImageContainer`):
full inner width, top 80% of the content height. -/
def imageBox : Rect :=
  { x := innerBox.x
    y := innerBox.y
    w := innerBox.w
    h := contentHeightForContainers * (80 / 100) }

/-- Value `marginBetweenContainers = innerBoxWidth * 0.10`. -/
def marginBetweenContainers : ℚ := innerBox.w * (10 / 100)

/-- Value `widthForBothContainers = innerBoxWidth - marginBetweenContainers`. -/
def widthForBothContainers : ℚ := innerBox.w - marginBetweenContainers

/-- The player-information container box
(`renderPlayerInformationContainer`): 75% of the shared width, bottom 20%
of the content height, below the image container plus a safe margin. -/
def infoBox : Rect :=
  { x := innerBox.x
    y := innerBox.y + contentHeightForContainers * (80 / 100) + safeMargin
    w := widthForBothContainers * (75 / 100)
    h := contentHeightForContainers * (20 / 100) }

/-- The emblem (team-logo) container box (`renderPlayerLogoContainer`):
remaining 25% of the shared width, to the right of the info box after the
10% gutter. -/
def emblemBox : Rect :=
  { x := innerBox.x + widthForBothContainers * (75 / 100) + marginBetweenContainers
    y := innerBox.y + contentHeightForContainers * (80 / 100) + safeMargin
    w := widthForBothContainers * (25 / 100)
    h := contentHeightForContainers * (20 / 100) }

/-- Rectangle `a` lies fully inside `b` (all four edges within). -/
def rectInside (a b : Rect) : Prop :=
  b.x ≤ a.x ∧ b.y ≤ a.y ∧ a.x + a.w ≤ b.x + b.w ∧ a.y + a.h ≤ b.y + b.h

/-- Rectangles `a` and `b` do not overlap: they are separated along some axis. -/
def rectDisjoint (a b : Rect) : Prop :=
  a.x + a.w ≤ b.x ∨ b.x + b.w ≤ a.x ∨ a.y + a.h ≤ b.y ∨ b.y + b.h ≤ a.y

/-- The cover-fit draw rectangle computed by `renderPlayerImage`
(lines 686–723): given the source image dimensions, scale so the image
fills the fixed player-image target box, cropping the overflowing axis and
centering the crop. -/
def renderPlayerImageDrawRect (imgW imgH : ℚ) : Rect :=
  let imageAspect := imgW / imgH
  let containerAspect := imageBox.w / imageBox.h
  if containerAspect < imageAspect then
    -- image wider than container: height fills, width overflows centred
    { x := imageBox.x + (imageBox.w - imageBox.h * imageAspect) / 2
      y := imageBox.y
      w := imageBox.h * imageAspect
      h := imageBox.h }
  else
    -- image taller (or equal): width fills, height overflows centred
    { x := imageBox.x
      y := imageBox.y + (imageBox.h - imageBox.w / imageAspect) / 2
      w := imageBox.w
      h := imageBox.w / imageAspect }

/-- Centre x of the emblem circle (`renderPlayerLogoContainer`). -/
def emblemCircleCenterX : ℚ := emblemBox.x + emblemBox.w / 2

/-- Centre y of the emblem circle (`renderPlayerLogoContainer`). -/
def emblemCircleCenterY : ℚ := emblemBox.y + emblemBox.h / 2

/-- Radius of the emblem circle:
`1.2 * (Math.min(containerWidth, thisContainerHeight) / 2 - 4)`. -/
def emblemCircleRadius : ℚ := (12 / 10) * (min emblemBox.w emblemBox.h / 2 - 4)

/-- Stroke line width of the emblem circle (`ctx.lineWidth = 2`). -/
def emblemCircleStrokeWidth : ℚ := 2

/-! ### Decimal printing of numbers (JS template-literal interpolation) -/

/-- Fuel-driven digit extraction (structural recursion so that concrete
values evaluate in the kernel). -/
def natCharsFuel : Nat → Nat → List Char
  | 0, _ => []
  | fuel + 1, n =>
    if n < 10 then [Nat.digitChar n]
    else natCharsFuel fuel (n / 10) ++ [Nat.digitChar (n % 10)]

/-- Decimal digit characters of a natural number, most significant first
(model of JS number-to-string for the integer stat values). -/
def natChars (n : Nat) : List Char := natCharsFuel (n + 1) n

/-- Decimal string of a natural number. -/
def natStr (n : Nat) : String := ⟨natChars n⟩

/-- Decimal string of an integer. -/
def intStr (i : Int) : String := if i < 0 then "-" ++ natStr i.natAbs else natStr i.natAbs

/-- Decoding step: fold digits back into the value. -/
def digitsVal (l : List Char) : Nat :=
  l.foldl (fun v c => v * 10 + (c.toNat - 48)) 0

/-! ### Character-level split / join / trim (models of JS string methods) -/

/-- Model of JS `String.prototype.split` with a single-character separator,
on character lists. -/
def chSplit (sep : Char) : List Char → List (List Char)
  | [] => [[]]
  | c :: cs =>
    if c = sep then [] :: chSplit sep cs
    else
      match chSplit sep cs with
      | [] => [[c]]
      | p :: ps => (c :: p) :: ps

/-- Model of JS `Array.prototype.join` with a single-character separator,
on character lists. -/
def chJoin (sep : Char) : List (List Char) → List Char
  | [] => []
  | [l] => l
  | l :: ls => l ++ sep :: chJoin sep ls

/-- JS `s.split(sep)` for strings. -/
def strSplit (sep : Char) (s : String) : List String :=
  (chSplit sep s.data).map fun l => ⟨l⟩

/-- JS `parts.join(sep)` for strings. -/
def strJoin (sep : Char) (ls : List String) : String :=
  ⟨chJoin sep (ls.map String.data)⟩

/-- JS `parts.join(sep)` with a string separator (used for
`details.join(' / ')`). -/
def strJoinBy (sep : String) : List String → String
  | [] => ""
  | [a] => a
  | a :: rest => a ++ sep ++ strJoinBy sep rest

/-- JS whitespace test for `trim` (restricted to the four common
whitespace characters). -/
def wsChar (c : Char) : Bool := c = ' ' || c = '\n' || c = '\t' || c = '\r'

/-- Model of JS `String.prototype.trim` on character lists. -/
def trimCh (l : List Char) : List Char :=
  ((l.dropWhile wsChar).reverse.dropWhile wsChar).reverse

/-- JS `s.trim()`. -/
def jsTrim (s : String) : String := ⟨trimCh s.data⟩

/-! ### Player statistics (`generatePlayerStats`, lines 985–996)

`Math.random()` draws are an input stream `r : Nat → ℚ` consumed at
successive positions starting at a base offset, in source order. -/

/-- Line value of games played: floor of a draw times 20, plus 15. -/
def gamesValue (r : Nat → ℚ) (b : Nat) : ℤ := ⌊r b * 20⌋ + 15

/-- Line value of the batting average: floor of a draw times 300, plus 200. -/
def battingValue (r : Nat → ℚ) (b : Nat) : ℤ := ⌊r (b + 1) * 300⌋ + 200

/-- Line value of home runs: floor of a draw times 8, plus 2. -/
def homeRunsValue (r : Nat → ℚ) (b : Nat) : ℤ := ⌊r (b + 2) * 8⌋ + 2

/-- Line value of RBIs: floor of a draw times 25, plus 10. -/
def rbisValue (r : Nat → ℚ) (b : Nat) : ℤ := ⌊r (b + 3) * 25⌋ + 10

/-- Line value of stolen bases: floor of a draw times 10, plus 3. -/
def stolenBasesValue (r : Nat → ℚ) (b : Nat) : ℤ := ⌊r (b + 4) * 10⌋ + 3

/-- Line value of the fielding percentage: floor of a draw times 100, plus 900. -/
def fieldingValue (r : Nat → ℚ) (b : Nat) : ℤ := ⌊r (b + 5) * 100⌋ + 900

/-- The `stats` array built by `generatePlayerStats`. -/
def statLines (r : Nat → ℚ) (b : Nat) : List String :=
  ["Games Played: " ++ intStr (gamesValue r b),
   "Batting Average: ." ++ intStr (battingValue r b),
   "Home Runs: " ++ intStr (homeRunsValue r b),
   "RBIs: " ++ intStr (rbisValue r b),
   "Stolen Bases: " ++ intStr (stolenBasesValue r b),
   "Fielding %: ." ++ intStr (fieldingValue r b)]

/-- Function `generatePlayerStats`: the six stat lines joined with newlines,
consuming six fresh random draws starting at offset `b`. -/
def generatePlayerStats (r : Nat → ℚ) (b : Nat) : String :=
  strJoin '\n' (statLines r b)

/-! ### Word wrap (`wrapText`, lines 1037–1059) -/

/-- The greedy loop of `wrapText`: `measure` models
`ctx.measureText(line).width` under the active font; `cur` is
`currentLine`.  A line is pushed when the test line overflows and the
current line is truthy (non-empty); the final current line is pushed iff
truthy. -/
def wrapGo (measure : String → ℚ) (maxWidth : ℚ) : List String → String → List String
  | [], cur => if cur = "" then [] else [cur]
  | w :: ws, cur =>
    if maxWidth < measure (if cur = "" then w else cur ++ " " ++ w) ∧ cur ≠ "" then
      cur :: wrapGo measure maxWidth ws w
    else
      wrapGo measure maxWidth ws (if cur = "" then w else cur ++ " " ++ w)

/-- Function `wrapText`: split on single spaces (JS `text.split(' ')`), then wrap
greedily starting from an empty current line. -/
def wrapText (measure : String → ℚ) (text : String) (maxWidth : ℚ) : List String :=
  wrapGo measure maxWidth (strSplit ' ' text) ""

/-- Whitespace normalization used by the round-trip claim: collapse runs
of spaces and trim, i.e. drop the empty words of the space-split and
re-join with single spaces. -/
def normalizeSpaces (text : String) : String :=
  strJoin ' ' ((strSplit ' ' text).filter fun w => w ≠ "")

/-! ### Shrink-to-fit font-size search (`renderPlayerInformation`,
lines 863–884)

`while (optimalFontSize > minPlayerNameFontSize) { measure; if fits break;
optimalFontSize -= 1 }` followed by
`optimalFontSize = Math.max(optimalFontSize, 10)`. -/

/-- The decrement loop: candidate sizes `s, s-1, s-2, …` until `fits` or
the floor of 10 is crossed. -/
def shrinkSearch (fits : ℚ → Bool) (s : ℚ) : ℚ :=
  if h : 10 < s then
    if fits s then s else shrinkSearch fits (s - 1)
  else s
termination_by (⌈s - 10⌉).toNat
decreasing_by
  simp_wf
  have h2 : 10 < ⌈s⌉ := Int.lt_ceil.mpr (by exact_mod_cast h)
  have h3 : ⌈s - 1 - 10⌉ = ⌈s⌉ - 11 := by
    rw [show s - 1 - 10 = s - ((11 : ℤ) : ℚ) by push_cast; ring, Int.ceil_sub_int]
  omega

/-- The fit test used by the loop: measured width within `maxW` and
measured height (ascent + descent) within `maxH`; `measure` maps a font
size to the measured `(width, height)` of the fixed text. -/
def nameFits (measure : ℚ → ℚ × ℚ) (maxW maxH : ℚ) (s : ℚ) : Bool :=
  (measure s).1 ≤ maxW ∧ (measure s).2 ≤ maxH

/-- The complete shrink-to-fit computation: loop, then clamp to the floor
of 10 (`Math.max(optimalFontSize, 10)`). -/
def fontFit (measure : ℚ → ℚ × ℚ) (maxW maxH start : ℚ) : ℚ :=
  max (shrinkSearch (nameFits measure maxW maxH) start) 10

/-! ### The render pipeline (`generateCard`, `buildFrontCard`,
`buildBackCard`)

Canvas painting is modelled as a trace of drawing operations; the decode
outcomes of the three image loads (texture, photo, emblem) and the text
measurement function of the 2D context are explicit inputs. -/

/-- A decoded raster image: dimensions plus a pixel-content identity. -/
structure Img where
  width : ℚ
  height : ℚ
  pix : Nat
  deriving DecidableEq

/-- The font state of a 2D context: size, boldness, family. -/
structure FontSpec where
  size : ℚ
  bold : Bool
  family : String
  deriving DecidableEq

/-- One canvas paint operation. -/
inductive DrawOp where
  | fillRect (x y w h : ℚ) (color : String)
  | gradientRect (x y w h : ℚ) (stops : List (ℚ × String))
  | strokeRect (x y w h lineWidth : ℚ) (color : String)
  | fillRoundRect (x y w h radius : ℚ) (color : String)
  | strokeRoundRect (x y w h radius lineWidth : ℚ) (color : String)
  | fillCircle (cx cy radius : ℚ) (color : String)
  | strokeCircle (cx cy radius lineWidth : ℚ) (color : String)
  | drawImageFull (img : Img) (w h alpha : ℚ) (blend : String)
  | drawImageClipRect (img : Img) (cx cy cw ch dx dy dw dh : ℚ)
  | drawImageClipCircle (img : Img) (ccx ccy cr dx dy dw dh : ℚ)
  | fillText (text : String) (x y : ℚ) (font : FontSpec) (color : String)
  deriving DecidableEq

/-- Structure `CardPlayerData`: JS optional string fields are `Option String`
(absent = `none`), and JS truthiness of a string is non-emptiness. -/
structure CardPlayerData where
  name : String
  position : Option String
  teamName : Option String
  cardNumber : Option String
  cardSet : Option String
  cardYear : Option String
  bio : Option String
  customStats : Option String
  playerPhotoDataUri : String
  teamLogoDataUri : String
  style : String

/-- JS truthiness of an optional string field. -/
def optTruthy : Option String → Bool
  | none => false
  | some s => s ≠ ""

/-- ASCII lower-casing (model of `String.prototype.toLowerCase` for the
style identifiers used here). -/
def lowerChar (c : Char) : Char :=
  if 'A' ≤ c ∧ c ≤ 'Z' then Char.ofNat (c.toNat + 32) else c

/-- Model of `s.toLowerCase()`. -/
def strLower (s : String) : String := ⟨s.data.map lowerChar⟩

/-- Decode/measure environment of one render: outcomes of the texture,
photo and emblem loads (`none` = decode failure), the context's text
measurement (font ↦ text ↦ (width, ascent+descent)), and the
`Math.random()` stream. -/
structure RenderEnv where
  texture : Option Img
  photo : Option Img
  emblem : Option Img
  measure : FontSpec → String → ℚ × ℚ
  rand : Nat → ℚ

/-- Base fill color chosen by `renderBaseBackground` when the texture
loads. -/
def baseColorFor (style : String) : String :=
  if style = "vintage" then "#d4c4a0"
  else if style = "modern" then "#3a3a3a"
  else "#e8dcc0"

/-- Texture overlay opacity per style. -/
def patternOpacityFor (style : String) : ℚ :=
  if style = "modern" then 3 / 10
  else if style = "vintage" then 6 / 10
  else 4 / 10

/-- Texture composite (blend) mode per style. -/
def blendFor (style : String) : String :=
  if style = "modern" then "multiply"
  else if style = "vintage" then "overlay"
  else "soft-light"

/-- Fallback gradient stops per style, used when the texture fails to
load. -/
def fallbackGradientStops (style : String) : List (ℚ × String) :=
  if style = "vintage" then [((0 : ℚ), "#f4e4bc"), (1, "#d4af37")]
  else if style = "modern" then [((0 : ℚ), "#2c3e50"), (1, "#3498db")]
  else [((0 : ℚ), "#ffffff"), (1, "#f8f9fa")]

/-- Layer 1 (`renderBaseBackground`): base color + stretched texture on
success, style gradient on texture-load failure; always followed by the
border stroke. -/
def renderBaseBackground (pd : CardPlayerData) (texture : Option Img) : List DrawOp :=
  (match texture with
   | some img =>
     [DrawOp.fillRect 0 0 cardWidth cardHeight (baseColorFor (strLower pd.style)),
      DrawOp.drawImageFull img cardWidth cardHeight
        (patternOpacityFor (strLower pd.style)) (blendFor (strLower pd.style))]
   | none =>
     [DrawOp.gradientRect 0 0 cardWidth cardHeight
        (fallbackGradientStops (strLower pd.style))]) ++
  [DrawOp.strokeRect 2 2 (cardWidth - 4) (cardHeight - 4) 4 "#333"]

/-- Layer 2 (`renderPlayerImageContainer`): rounded panel at the image
box. -/
def renderPlayerImageContainerOps : List DrawOp :=
  [DrawOp.fillRoundRect imageBox.x imageBox.y imageBox.w imageBox.h 15
     "rgba(255, 255, 255, 0.9)",
   DrawOp.strokeRoundRect imageBox.x imageBox.y imageBox.w imageBox.h 15 2 "#666"]

/-- Layer 3 (`renderPlayerInformationContainer`): rounded panel at the
info box plus the clipped inner-shadow gradient. -/
def renderPlayerInformationContainerOps : List DrawOp :=
  [DrawOp.fillRoundRect infoBox.x infoBox.y infoBox.w infoBox.h 15
     "rgba(255, 255, 255, 0.95)",
   DrawOp.strokeRoundRect infoBox.x infoBox.y infoBox.w infoBox.h 15 2 "#333",
   DrawOp.gradientRect infoBox.x infoBox.y infoBox.w 20
     [((0 : ℚ), "rgba(0, 0, 0, 0.1)"), (1, "rgba(0, 0, 0, 0)")]]

/-- Layer 4 (`renderPlayerLogoContainer`): the circular emblem panel. -/
def renderPlayerLogoContainerOps : List DrawOp :=
  [DrawOp.fillCircle emblemCircleCenterX emblemCircleCenterY emblemCircleRadius
     "rgba(255, 255, 255, 0.9)",
   DrawOp.strokeCircle emblemCircleCenterX emblemCircleCenterY emblemCircleRadius 2 "#666"]

/-- Layer 5 (`renderPlayerImage`): cover-fit photo clipped to the image
box; decode failure degrades to the placeholder
(`drawImagePlaceholder`). -/
def renderPlayerImageOps (photo : Option Img) : List DrawOp :=
  match photo with
  | some img =>
    let d := renderPlayerImageDrawRect img.width img.height
    [DrawOp.drawImageClipRect img imageBox.x imageBox.y imageBox.w imageBox.h
       d.x d.y d.w d.h]
  | none =>
    [DrawOp.fillRect (safeMargin + 10) (safeMargin + 70)
       (cardWidth - 2 * safeMargin - 20) 380 "#ddd",
     DrawOp.fillText "Player Photo"
       (safeMargin + 10 + (cardWidth - 2 * safeMargin - 20) / 2)
       (safeMargin + 70 + 190) ⟨24, false, "Arial, sans-serif"⟩ "#666"]

/-- Layer 6 (`renderTeamInformation`): contain-fit emblem clipped to the
inner circle (radius `min/2 - 4`, *without* the 1.2 factor); decode
failure is silently skipped; skipped entirely when the data URI is
falsy. -/
def renderTeamInformationOps (pd : CardPlayerData) (emblem : Option Img) : List DrawOp :=
  if pd.teamLogoDataUri ≠ "" then
    match emblem with
    | some img =>
      let r := min emblemBox.w emblemBox.h / 2 - 4
      let dia := 2 * r
      let aspect := img.width / img.height
      let dw := if 1 < aspect then dia else dia * aspect
      let dh := if 1 < aspect then dia / aspect else dia
      [DrawOp.drawImageClipCircle img emblemCircleCenterX emblemCircleCenterY r
         (emblemCircleCenterX - dw / 2) (emblemCircleCenterY - dh / 2) dw dh]
    | none => []
  else []

/-- The font family used for the player name and secondary lines. -/
def nameFontFamily : String := "\"Roboto Condensed\", Arial, sans-serif"

/-- Layer 7 (`renderPlayerInformation`): shrink-to-fit name, then
position and `#cardNumber / year` lines drawn only if they fit in the
remaining height. -/
def renderPlayerInformationOps (pd : CardPlayerData)
    (measure : FontSpec → String → ℚ × ℚ) : List DrawOp :=
  let usableTextX := infoBox.x + 10
  let usableTextY := infoBox.y + 10
  let usableTextWidth := infoBox.w - 2 * 10
  let usableTextHeight := infoBox.h - 2 * 10
  if usableTextWidth ≤ 0 ∨ usableTextHeight ≤ 0 then []
  else
    let totalContentHeight := usableTextHeight - 8
    let nameAreaHeight := totalContentHeight * (75 / 100)
    let otherInfoAreaHeight := totalContentHeight * (25 / 100)
    let nameCenterX := usableTextX + usableTextWidth / 2
    let nameCenterY := usableTextY + nameAreaHeight / 2
    let optSize :=
      if pd.name ≠ "" ∧ jsTrim pd.name ≠ "" then
        fontFit (fun s => measure ⟨s, true, nameFontFamily⟩ pd.name)
          usableTextWidth nameAreaHeight nameAreaHeight
      else nameAreaHeight
    let nameFont : FontSpec := ⟨optSize, true, nameFontFamily⟩
    let otherStartY := usableTextY + nameAreaHeight + 8
    let posPart : List DrawOp × ℚ × FontSpec :=
      match pd.position with
      | some p =>
        if p ≠ "" then
          let f18 : FontSpec := ⟨18, true, nameFontFamily⟩
          let ph := (measure f18 p).2
          if otherStartY + ph < otherStartY + otherInfoAreaHeight then
            ([DrawOp.fillText p nameCenterX otherStartY f18 "#333"],
             (otherStartY + ph + 4, f18))
          else ([], (otherStartY, f18))
        else ([], (otherStartY, nameFont))
      | none => ([], (otherStartY, nameFont))
    let details : List String :=
      (match pd.cardNumber with
       | some n => if n ≠ "" then ["#" ++ n] else []
       | none => []) ++
      (match pd.cardYear with
       | some y => if y ≠ "" then [y] else []
       | none => [])
    let detailOps : List DrawOp :=
      if details ≠ [] then
        let dtext := strJoinBy " / " details
        let dh := (measure posPart.2.2 dtext).2
        if posPart.2.1 + dh < otherStartY + otherInfoAreaHeight then
          [DrawOp.fillText dtext nameCenterX posPart.2.1 posPart.2.2 "#555"]
        else []
      else []
    DrawOp.fillText pd.name nameCenterX nameCenterY nameFont "#333" ::
      (posPart.1 ++ detailOps)

/-- Function `buildFrontCard`: the seven front layers in order.  It never reads
the random stream. -/
def buildFrontCard (pd : CardPlayerData) (texture photo emblem : Option Img)
    (measure : FontSpec → String → ℚ × ℚ) : List DrawOp :=
  renderBaseBackground pd texture ++
  renderPlayerImageContainerOps ++
  renderPlayerInformationContainerOps ++
  renderPlayerLogoContainerOps ++
  renderPlayerImageOps photo ++
  renderTeamInformationOps pd emblem ++
  renderPlayerInformationOps pd measure

/-- The stat lines painted on the back face:
`stats.split('\n').filter(line => line.trim()).slice(0, 8)` where `stats`
is a fresh `generatePlayerStats()` sample (stream offset 0). -/
def backPaintedStatLines (r : Nat → ℚ) : List String :=
  ((strSplit '\n' (generatePlayerStats r 0)).filter fun l => jsTrim l ≠ "").take 8

/-- Function `buildBackCard`: background, border, header, optional wrapped bio
(capped at 6 lines), then up to 8 stat lines from a fresh stats sample. -/
def buildBackCard (pd : CardPlayerData) (measure : FontSpec → String → ℚ × ℚ)
    (r : Nat → ℚ) : List DrawOp :=
  let fam := "Arial, sans-serif"
  let header : List DrawOp :=
    [DrawOp.fillRect 0 0 cardWidth cardHeight "#f8f9fa",
     DrawOp.strokeRect 2 2 (cardWidth - 4) (cardHeight - 4) 4 "#333",
     DrawOp.fillText pd.name (cardWidth / 2) 80 ⟨28, true, fam⟩ "#333"]
  let bioPart : List DrawOp × ℚ :=
    match pd.bio with
    | some bioText =>
      if bioText ≠ "" then
        let bioLines :=
          (wrapText (fun s => (measure ⟨16, false, fam⟩ s).1) bioText
            (cardWidth - 120)).take 6
        (DrawOp.fillText "Biography" 60 150 ⟨20, true, fam⟩ "#333" ::
           bioLines.mapIdx (fun i l =>
             DrawOp.fillText l 60 (190 + 22 * (i : ℚ)) ⟨16, false, fam⟩ "#333"),
         190 + 22 * (bioLines.length : ℚ) + 30)
      else ([], 150)
    | none => ([], 150)
  let statsY := bioPart.2
  header ++ bioPart.1 ++
    (DrawOp.fillText "Season Stats" 60 statsY ⟨20, true, fam⟩ "#333" ::
      (backPaintedStatLines r).mapIdx (fun i l =>
        DrawOp.fillText l 60 (statsY + 40 + 22 * (i : ℚ)) ⟨16, false, fam⟩ "#333"))

/-- A render surface of fixed dimensions with its paint trace; a lossless
PNG encode of it is modelled by the surface itself. -/
structure Surface where
  width : ℚ
  height : ℚ
  ops : List DrawOp

/-- Structure `ClientCardResult`. -/
structure ClientCardResult where
  front : Surface
  back : Surface
  playerStats : String

/-- Function `generateCard`: build front (no random draws), build back (consumes
random draws 0–5 via its fresh stats sample), then generate the returned
stats text (fresh draws 6–11); decode failures have already been absorbed
by the layers, so the result is always `ok`. -/
def generateCard (pd : CardPlayerData) (env : RenderEnv) :
    Except String ClientCardResult :=
  Except.ok
    { front := ⟨cardWidth, cardHeight,
        buildFrontCard pd env.texture env.photo env.emblem env.measure⟩
      back := ⟨cardWidth, cardHeight, buildBackCard pd env.measure env.rand⟩
      playerStats := generatePlayerStats env.rand 6 }

/-! ### The `Label: Value` line format -/

/-- Split a character list at the first `": "` occurrence into
(label, value). -/
def lvSplit : List Char → Option (List Char × List Char)
  | [] => none
  | [_] => none
  | c :: d :: rest =>
    if c = ':' ∧ d = ' ' then some ([], rest)
    else
      match lvSplit (d :: rest) with
      | some (l, v) => some (c :: l, v)
      | none => none

/-- A line is of the form `Label: Value` when it splits at a `": "` with
non-empty label and value. -/
def isLVb (s : String) : Bool :=
  match lvSplit s.data with
  | some (l, v) => decide (l ≠ []) && decide (v ≠ [])
  | none => false

/-! ### Scenario inputs -/

/-- The end-to-end scenario `PlayerData`: name `"Alex Johnson"`, no
position, no team, required photo/emblem data URIs, style `"modern"`. -/
def alexPd : CardPlayerData :=
  { name := "Alex Johnson"
    position := none
    teamName := none
    cardNumber := none
    cardSet := none
    cardYear := none
    bio := none
    customStats := none
    playerPhotoDataUri := "data:image/png;base64,photo"
    teamLogoDataUri := "data:image/png;base64,emblem"
    style := "modern" }

/-- A healthy environment: texture, a 400×600 photo and a 200×200 emblem
all decode; the given random stream. -/
def alexEnv (r : Nat → ℚ) : RenderEnv :=
  { texture := some ⟨100, 100, 1⟩
    photo := some ⟨400, 600, 2⟩
    emblem := some ⟨200, 200, 3⟩
    measure := fun _ _ => (0, 0)
    rand := r }

/-- An environment in which every image decode fails. -/
def failEnv : RenderEnv :=
  { texture := none
    photo := none
    emblem := none
    measure := fun _ _ => (0, 0)
    rand := fun _ => 0 }

/-! ## Theorems -/

/-- C2: for the fixed card dimensions (750×1050, safe margin 75), the three
container boxes recomputed by the layers — player-image box, player-info
box, emblem box — are pairwise non-overlapping, each nests fully inside the
safe-margin inset rectangle, and the image box height equals 0.80 times the
usable content height (exactly, hence within rounding). -/
theorem layout_boxes_disjoint_nested :
    rectDisjoint imageBox infoBox ∧ rectDisjoint imageBox emblemBox ∧
    rectDisjoint infoBox emblemBox ∧
    rectInside imageBox innerBox ∧ rectInside infoBox innerBox ∧
    rectInside emblemBox innerBox ∧
    imageBox.h = (80 / 100) * contentHeightForContainers := by
  refine ⟨?_, ?_, ?_, ?_, ?_, ?_, ?_⟩ <;>
    simp only [rectDisjoint, rectInside, imageBox, infoBox, emblemBox, innerBox,
      contentHeightForContainers, widthForBothContainers, marginBetweenContainers,
      cardWidth, cardHeight, safeMargin] <;> norm_num

/-- C6 counterexample: the emblem circle is *not* inscribed in the emblem
box — its radius (76.2) exceeds the box half-width (67.5), so even without
its stroke the circle crosses the box's right edge. -/
theorem emblem_circle_not_inscribed :
    emblemBox.x + emblemBox.w < emblemCircleCenterX + emblemCircleRadius ∧
    emblemCircleCenterX - emblemCircleRadius < emblemBox.x ∧
    emblemCircleRadius = 381 / 5 ∧ emblemBox.w / 2 = 135 / 2 := by
  refine ⟨?_, ?_, ?_, ?_⟩ <;>
    simp only [emblemCircleCenterX, emblemCircleRadius, emblemBox, innerBox,
      contentHeightForContainers, widthForBothContainers, marginBetweenContainers,
      cardWidth, cardHeight, safeMargin] <;> norm_num

/-- C6 amended: the emblem circle (radius 76.2, stroke width 2) stays inside
the emblem box vertically — including its stroke — but overflows the box
horizontally by exactly 8.7 on each side (9.7 including the stroke's outer
edge). -/
theorem emblem_circle_vertical_inside_horizontal_overflow :
    emblemBox.y ≤ emblemCircleCenterY - (emblemCircleRadius + emblemCircleStrokeWidth / 2) ∧
    emblemCircleCenterY + (emblemCircleRadius + emblemCircleStrokeWidth / 2) ≤
      emblemBox.y + emblemBox.h ∧
    emblemBox.x - emblemCircleCenterX + emblemCircleRadius = 87 / 10 ∧
    emblemCircleCenterX + emblemCircleRadius - (emblemBox.x + emblemBox.w) = 87 / 10 := by
  refine ⟨?_, ?_, ?_, ?_⟩ <;>
    simp only [emblemCircleCenterX, emblemCircleCenterY, emblemCircleRadius,
      emblemCircleStrokeWidth, emblemBox, innerBox, contentHeightForContainers,
      widthForBothContainers, marginBetweenContainers,
      cardWidth, cardHeight, safeMargin] <;> norm_num

/-- C1: for every source image with positive dimensions, the cover-fit
computation in `renderPlayerImage` preserves the source aspect
(`drawW/drawH = imgW/imgH` exactly), fully covers the fixed player-image
box on both axes, and: when the image aspect exceeds the box aspect the
draw height equals the box height and the horizontal overflow is centred,
otherwise the draw width equals the box width and the vertical overflow is
centred. -/
theorem renderPlayerImage_coverFit (imgW imgH : ℚ) (hw : 0 < imgW) (hh : 0 < imgH) :
    (renderPlayerImageDrawRect imgW imgH).w / (renderPlayerImageDrawRect imgW imgH).h
      = imgW / imgH ∧
    (renderPlayerImageDrawRect imgW imgH).x ≤ imageBox.x ∧
    imageBox.x + imageBox.w ≤
      (renderPlayerImageDrawRect imgW imgH).x + (renderPlayerImageDrawRect imgW imgH).w ∧
    (renderPlayerImageDrawRect imgW imgH).y ≤ imageBox.y ∧
    imageBox.y + imageBox.h ≤
      (renderPlayerImageDrawRect imgW imgH).y + (renderPlayerImageDrawRect imgW imgH).h ∧
    (imageBox.w / imageBox.h < imgW / imgH →
      (renderPlayerImageDrawRect imgW imgH).h = imageBox.h ∧
      (renderPlayerImageDrawRect imgW imgH).x
        = imageBox.x + (imageBox.w - (renderPlayerImageDrawRect imgW imgH).w) / 2) ∧
    (¬ imageBox.w / imageBox.h < imgW / imgH →
      (renderPlayerImageDrawRect imgW imgH).w = imageBox.w ∧
      (renderPlayerImageDrawRect imgW imgH).y
        = imageBox.y + (imageBox.h - (renderPlayerImageDrawRect imgW imgH).h) / 2) := by
  have hbox : imageBox = { x := 75, y := 75, w := 600, h := 660 } := by
    simp only [imageBox, innerBox, contentHeightForContainers, cardWidth, cardHeight,
      safeMargin]; norm_num
  have ha : 0 < imgW / imgH := div_pos hw hh
  have ha0 : imgW / imgH ≠ 0 := ne_of_gt ha
  by_cases hc : imageBox.w / imageBox.h < imgW / imgH
  · have hrect : renderPlayerImageDrawRect imgW imgH =
        { x := imageBox.x + (imageBox.w - imageBox.h * (imgW / imgH)) / 2
          y := imageBox.y
          w := imageBox.h * (imgW / imgH)
          h := imageBox.h } := by
      rw [renderPlayerImageDrawRect, if_pos hc]
    rw [hrect, hbox]
    rw [hbox] at hc
    simp only at hc ⊢
    have hwide : (600 : ℚ) < 660 * (imgW / imgH) := by
      have h1 : (600 : ℚ) < imgW / imgH * 660 := (div_lt_iff (by norm_num)).mp hc
      linarith
    refine ⟨?_, by linarith, by linarith, le_refl _, by linarith, fun hc2 => by norm_num,
      fun hc2 => absurd hc hc2⟩
    field_simp <;> ring
  · have hrect : renderPlayerImageDrawRect imgW imgH =
        { x := imageBox.x
          y := imageBox.y + (imageBox.h - imageBox.w / (imgW / imgH)) / 2
          w := imageBox.w
          h := imageBox.w / (imgW / imgH) } := by
      rw [renderPlayerImageDrawRect, if_neg hc]
    rw [hrect, hbox]
    rw [hbox] at hc
    simp only at hc ⊢
    push_neg at hc
    have h1 : imgW / imgH * 660 ≤ 600 := (le_div_iff (by norm_num)).mp hc
    have htall : (660 : ℚ) ≤ 600 / (imgW / imgH) := by
      rw [le_div_iff ha]; linarith
    refine ⟨?_, le_refl _, by linarith, by linarith, by linarith,
      fun hc2 => absurd hc2 (not_lt.mpr hc), fun hc2 => by norm_num⟩
    field_simp <;> ring

theorem natCharsFuel_congr : ∀ n f1 f2 : Nat, n < f1 → n < f2 →
    natCharsFuel f1 n = natCharsFuel f2 n := by
  intro n
  induction n using Nat.strong_induction_on with
  | _ n ih =>
    intro f1 f2 h1 h2
    match f1, f2 with
    | g1 + 1, g2 + 1 =>
      rw [natCharsFuel, natCharsFuel]
      by_cases hn : n < 10
      · rw [if_pos hn, if_pos hn]
      · rw [if_neg hn, if_neg hn,
          ih (n / 10) (Nat.div_lt_self (by omega) (by omega)) g1 g2 (by omega) (by omega)]

/-- The defining recurrence of `natChars`. -/
theorem natChars_eq (n : Nat) : natChars n =
    if n < 10 then [Nat.digitChar n]
    else natChars (n / 10) ++ [Nat.digitChar (n % 10)] := by
  rw [natChars, natCharsFuel]
  by_cases hn : n < 10
  · rw [if_pos hn, if_pos hn]
  · rw [if_neg hn, if_neg hn, natChars,
      natCharsFuel_congr (n / 10) n (n / 10 + 1) (Nat.div_lt_self (by omega) (by omega))
        (by omega)]

theorem natChars_ne_nil (n : Nat) : natChars n ≠ [] := by
  rw [natChars_eq]
  split
  · simp
  · simp

theorem digitChar_isDigit (d : Nat) (hd : d < 10) : (Nat.digitChar d).isDigit = true := by
  interval_cases d <;> decide

theorem natChars_all_digits (n : Nat) : ∀ c ∈ natChars n, c.isDigit = true := by
  induction n using Nat.strong_induction_on with
  | _ n ih =>
    rw [natChars_eq]
    split
    · intro c hc
      simp only [List.mem_singleton] at hc
      subst hc
      exact digitChar_isDigit n (by omega)
    · intro c hc
      simp only [List.mem_append, List.mem_singleton] at hc
      rcases hc with hc | hc
      · exact ih (n / 10) (Nat.div_lt_self (by omega) (by omega)) c hc
      · subst hc
        exact digitChar_isDigit (n % 10) (Nat.mod_lt n (by omega))

theorem digitChar_toNat (d : Nat) (hd : d < 10) : (Nat.digitChar d).toNat - 48 = d := by
  interval_cases d <;> decide

theorem foldl_natChars (n : Nat) : ∀ v : Nat,
    List.foldl (fun v c => v * 10 + (c.toNat - 48)) v (natChars n)
      = v * 10 ^ (natChars n).length + n := by
  induction n using Nat.strong_induction_on with
  | _ n ih =>
    intro v
    rw [natChars_eq]
    split
    · rename_i h
      simp only [List.foldl_cons, List.foldl_nil, List.length_singleton]
      rw [digitChar_toNat n h]
      ring
    · rename_i h
      rw [List.foldl_append, ih (n / 10) (Nat.div_lt_self (by omega) (by omega)) v]
      simp only [List.foldl_cons, List.foldl_nil, List.length_append, List.length_singleton]
      rw [digitChar_toNat (n % 10) (Nat.mod_lt n (by omega))]
      have hp : 10 ^ ((natChars (n / 10)).length + 1) = 10 ^ (natChars (n / 10)).length * 10 :=
        pow_succ 10 _
      rw [hp]
      generalize 10 ^ (natChars (n / 10)).length = A
      have h2 : v * (A * 10) = v * A * 10 := by ring
      rw [h2]
      omega

theorem digitsVal_natChars (n : Nat) : digitsVal (natChars n) = n := by
  rw [digitsVal, foldl_natChars n 0]
  simp

theorem natChars_injective : Function.Injective natChars := by
  intro a b h
  have := digitsVal_natChars a
  rw [h, digitsVal_natChars] at this
  omega

theorem natStr_injective : Function.Injective natStr := by
  intro a b h
  apply natChars_injective
  have : (natStr a).data = (natStr b).data := by rw [h]
  exact this

theorem natChars_no_newline (n : Nat) : '\n' ∉ natChars n := by
  intro hmem
  have := natChars_all_digits n '\n' hmem
  simp [Char.isDigit] at this

theorem chJoin_singleton (sep : Char) (a : List Char) : chJoin sep [a] = a := rfl

theorem chJoin_cons_cons (sep : Char) (a b : List Char) (l : List (List Char)) :
    chJoin sep (a :: b :: l) = a ++ sep :: chJoin sep (b :: l) := rfl

theorem chSplit_ne_nil (sep : Char) (l : List Char) : chSplit sep l ≠ [] := by
  cases l with
  | nil => simp [chSplit]
  | cons c cs =>
    rw [chSplit]
    split
    · simp
    · split <;> simp

theorem chSplit_no_sep (sep : Char) (l : List Char) (h : sep ∉ l) :
    chSplit sep l = [l] := by
  induction l with
  | nil => rfl
  | cons c cs ih =>
    have hc : c ≠ sep := fun he => h (he ▸ List.mem_cons_self c cs)
    have hcs : sep ∉ cs := fun hm => h (List.mem_cons_of_mem c hm)
    rw [chSplit, if_neg hc, ih hcs]

theorem chSplit_append_sep (sep : Char) (l rest : List Char) (h : sep ∉ l) :
    chSplit sep (l ++ sep :: rest) = l :: chSplit sep rest := by
  induction l with
  | nil =>
    simp only [List.nil_append]
    rw [chSplit, if_pos rfl]
  | cons c cs ih =>
    have hc : c ≠ sep := fun he => h (he ▸ List.mem_cons_self c cs)
    have hcs : sep ∉ cs := fun hm => h (List.mem_cons_of_mem c hm)
    simp only [List.cons_append]
    rw [chSplit, if_neg hc, ih hcs]

theorem chSplit_chJoin (sep : Char) (l : List Char) (ls : List (List Char))
    (h : ∀ x ∈ l :: ls, sep ∉ x) :
    chSplit sep (chJoin sep (l :: ls)) = l :: ls := by
  induction ls generalizing l with
  | nil =>
    rw [chJoin_singleton, chSplit_no_sep sep l (h l (List.mem_cons_self l []))]
  | cons l2 ls2 ih =>
    rw [chJoin_cons_cons]
    rw [chSplit_append_sep sep l (chJoin sep (l2 :: ls2)) (h l (List.mem_cons_self _ _))]
    rw [ih l2 fun x hx => h x (List.mem_cons_of_mem l hx)]

theorem strSplit_strJoin (s : String) (ss : List String)
    (h : ∀ x ∈ s :: ss, '\n' ∉ x.data) :
    strSplit '\n' (strJoin '\n' (s :: ss)) = s :: ss := by
  have hmk : ∀ t : String, (⟨t.data⟩ : String) = t := fun t => rfl
  rw [strSplit, strJoin]
  have hmap : List.map String.data (s :: ss) = s.data :: ss.map String.data := rfl
  rw [hmap, chSplit_chJoin '\n' s.data (ss.map String.data) ?side]
  case side =>
    intro x hx
    rcases List.mem_cons.mp hx with hx | hx
    · exact hx ▸ h s (List.mem_cons_self _ _)
    · rcases List.mem_map.mp hx with ⟨t, ht, rfl⟩
      exact h t (List.mem_cons_of_mem s ht)
  simp only [List.map_cons, List.map_map, Function.comp_def]
  simp [hmk]

theorem dropWhile_append_singleton_ne_nil (p : Char → Bool) (c : Char) (hp : p c = false)
    (xs : List Char) : List.dropWhile p (xs ++ [c]) ≠ [] := by
  induction xs with
  | nil => simp [List.dropWhile, hp]
  | cons x xs ih =>
    simp only [List.cons_append, List.dropWhile_cons]
    split
    · exact ih
    · simp

theorem trimCh_cons_ne_nil (c : Char) (l : List Char) (hc : wsChar c = false) :
    trimCh (c :: l) ≠ [] := by
  rw [trimCh]
  rw [List.dropWhile_cons_of_neg (by simp [hc])]
  intro hrev
  have : List.dropWhile wsChar (c :: l).reverse = [] := by
    simpa using congrArg List.reverse hrev
  rw [List.reverse_cons] at this
  exact dropWhile_append_singleton_ne_nil wsChar c hc l.reverse this

theorem floor_mul_range (x : ℚ) (m : ℕ) (hm : 0 < m) (h0 : 0 ≤ x) (h1 : x < 1) :
    0 ≤ ⌊x * (m : ℚ)⌋ ∧ ⌊x * (m : ℚ)⌋ < (m : ℤ) := by
  constructor
  · exact Int.floor_nonneg.mpr (mul_nonneg h0 (by positivity))
  · apply Int.floor_lt.mpr
    push_cast
    calc x * (m : ℚ) < 1 * (m : ℚ) := by
          exact mul_lt_mul_of_pos_right h1 (by exact_mod_cast hm)
      _ = (m : ℚ) := one_mul _

/-- C9: for in-range random draws, every stats block produced by
`generatePlayerStats` has its batting-average value in `[200, 500]`
(printed as `.200`–`.500`) and its home-run count in `[2, 9]`; each of the
two statistics is a function of its own dedicated random draw (positions
`b+1` and `b+2` of the stream), so they are sampled independently on every
call. -/
theorem generatePlayerStats_ranges (r : Nat → ℚ) (b : Nat)
    (hr : ∀ i, 0 ≤ r i ∧ r i < 1) :
    (statLines r b)[1]? = some ("Batting Average: ." ++ intStr (battingValue r b)) ∧
    200 ≤ battingValue r b ∧ battingValue r b ≤ 500 ∧
    (statLines r b)[2]? = some ("Home Runs: " ++ intStr (homeRunsValue r b)) ∧
    2 ≤ homeRunsValue r b ∧ homeRunsValue r b ≤ 9 ∧
    generatePlayerStats r b = strJoin '\n' (statLines r b) ∧
    (∀ q : Nat → ℚ, q (b + 1) = r (b + 1) → battingValue q b = battingValue r b) ∧
    (∀ q : Nat → ℚ, q (b + 2) = r (b + 2) → homeRunsValue q b = homeRunsValue r b) := by
  obtain ⟨hb0, hb1⟩ := floor_mul_range (r (b + 1)) 300 (by norm_num)
    (hr (b + 1)).1 (hr (b + 1)).2
  obtain ⟨hh0, hh1⟩ := floor_mul_range (r (b + 2)) 8 (by norm_num)
    (hr (b + 2)).1 (hr (b + 2)).2
  norm_num at hb0 hb1 hh0 hh1
  refine ⟨rfl, ?_, ?_, rfl, ?_, ?_, rfl, ?_, ?_⟩
  · rw [battingValue]; omega
  · rw [battingValue]; omega
  · rw [homeRunsValue]; omega
  · rw [homeRunsValue]; omega
  · intro q hq
    rw [battingValue, battingValue, hq]
  · intro q hq
    rw [homeRunsValue, homeRunsValue, hq]

/-- C9 witness at the all-zero random stream. -/
theorem generatePlayerStats_ranges_witness :
    (∀ i, 0 ≤ (fun _ : Nat => (0 : ℚ)) i ∧ (fun _ : Nat => (0 : ℚ)) i < 1) ∧
    (200 ≤ battingValue (fun _ => 0) 0 ∧ battingValue (fun _ => 0) 0 ≤ 500 ∧
      2 ≤ homeRunsValue (fun _ => 0) 0 ∧ homeRunsValue (fun _ => 0) 0 ≤ 9) := by
  have h : ∀ i, 0 ≤ (fun _ : Nat => (0 : ℚ)) i ∧ (fun _ : Nat => (0 : ℚ)) i < 1 :=
    fun i => ⟨le_refl 0, by norm_num⟩
  obtain ⟨-, h1, h2, -, h3, h4, -, -, -⟩ := generatePlayerStats_ranges (fun _ => 0) 0 h
  exact ⟨h, h1, h2, h3, h4⟩

theorem strJoin_cons_ne (sep : Char) (a : String) (l : List String) (h : l ≠ []) :
    strJoin sep (a :: l) = a ++ (⟨[sep]⟩ : String) ++ strJoin sep l := by
  apply String.ext
  cases l with
  | nil => exact absurd rfl h
  | cons b l2 =>
    show chJoin sep (a.data :: b.data :: (l2.map String.data))
      = ((a ++ ⟨[sep]⟩) ++ strJoin sep (b :: l2)).data
    rw [chJoin_cons_cons, String.data_append, String.data_append]
    show a.data ++ sep :: chJoin sep (b.data :: l2.map String.data)
      = a.data ++ [sep] ++ chJoin sep ((b :: l2).map String.data)
    simp

theorem append_space_ne_empty (cur w : String) : cur ++ " " ++ w ≠ "" := by
  intro h
  have hd : (cur ++ " " ++ w).data = ("" : String).data := congrArg String.data h
  rw [String.data_append, String.data_append] at hd
  have hsp : (" " : String).data = [' '] := rfl
  rw [hsp] at hd
  simp at hd

theorem wrapGo_ne_nil (measure : String → ℚ) (maxWidth : ℚ) (ws : List String)
    (cur : String) (hcur : cur ≠ "") : wrapGo measure maxWidth ws cur ≠ [] := by
  induction ws generalizing cur with
  | nil => simp [wrapGo, hcur]
  | cons w ws ih =>
    rw [wrapGo]
    simp only [if_neg hcur]
    split
    · simp
    · exact ih _ (append_space_ne_empty cur w)

theorem strJoin_glue (sep : Char) (a b : String) (l : List String) :
    strJoin sep ((a ++ (⟨[sep]⟩ : String) ++ b) :: l) = strJoin sep (a :: b :: l) := by
  apply String.ext
  cases l with
  | nil =>
    show ((a ++ (⟨[sep]⟩ : String) ++ b)).data = chJoin sep [a.data, b.data]
    rw [chJoin_cons_cons, chJoin_singleton, String.data_append, String.data_append]
    simp
  | cons c l2 =>
    show chJoin sep ((a ++ (⟨[sep]⟩ : String) ++ b).data :: c.data :: l2.map String.data)
      = chJoin sep (a.data :: b.data :: c.data :: l2.map String.data)
    rw [chJoin_cons_cons, chJoin_cons_cons, chJoin_cons_cons,
      String.data_append, String.data_append]
    simp [List.append_assoc]

theorem wrapGo_join (measure : String → ℚ) (maxWidth : ℚ) (ws : List String)
    (cur : String) (hcur : cur ≠ "") (hws : ∀ w ∈ ws, w ≠ "") :
    strJoin ' ' (wrapGo measure maxWidth ws cur) = strJoin ' ' (cur :: ws) := by
  induction ws generalizing cur with
  | nil => simp [wrapGo, hcur]
  | cons w ws ih =>
    have hw : w ≠ "" := hws w (List.mem_cons_self _ _)
    have hws2 : ∀ x ∈ ws, x ≠ "" := fun x hx => hws x (List.mem_cons_of_mem _ hx)
    rw [wrapGo]
    simp only [if_neg hcur]
    split
    · rw [strJoin_cons_ne ' ' cur _ (wrapGo_ne_nil measure maxWidth ws w hw),
        ih w hw hws2, strJoin_cons_ne ' ' cur (w :: ws) (by simp)]
    · rw [ih (cur ++ " " ++ w) (append_space_ne_empty cur w) hws2]
      have hsp : (" " : String) = (⟨[' ']⟩ : String) := rfl
      rw [hsp]
      exact strJoin_glue ' ' cur w ws

theorem wrapGo_overflow_head (measure : String → ℚ) (maxWidth : ℚ) (ws : List String)
    (cur : String) (hcur : cur ≠ "")
    (hext : ∀ a b : String, measure a ≤ measure (a ++ b) ∧ measure b ≤ measure (a ++ b))
    (hover : maxWidth < measure cur) :
    cur ∈ wrapGo measure maxWidth ws cur := by
  cases ws with
  | nil => simp [wrapGo, hcur]
  | cons w ws =>
    rw [wrapGo]
    simp only [if_neg hcur]
    rw [if_pos ?cond]
    case cond =>
      constructor
      · apply lt_of_lt_of_le hover
        have h1 := (hext cur (" " ++ w)).1
        rw [← String.append_assoc] at h1
        exact h1
      · exact hcur
    exact List.mem_cons_self _ _

theorem wrapGo_overflow_mem (measure : String → ℚ) (maxWidth : ℚ) (ws : List String)
    (hext : ∀ a b : String, measure a ≤ measure (a ++ b) ∧ measure b ≤ measure (a ++ b))
    (hws : ∀ w ∈ ws, w ≠ "") :
    ∀ cur, ∀ w ∈ ws, maxWidth < measure w → w ∈ wrapGo measure maxWidth ws cur := by
  induction ws with
  | nil => intro cur w hw; exact absurd hw (List.not_mem_nil w)
  | cons w1 ws ih =>
    intro cur w hw hover
    have hw1 : w1 ≠ "" := hws w1 (List.mem_cons_self _ _)
    have hws2 : ∀ x ∈ ws, x ≠ "" := fun x hx => hws x (List.mem_cons_of_mem _ hx)
    rcases List.mem_cons.mp hw with heq | hmem
    · subst heq
      by_cases hcur : cur = ""
      · subst hcur
        rw [wrapGo]
        rw [if_neg (by simp)]
        rw [if_pos rfl]
        exact wrapGo_overflow_head measure maxWidth ws w hw1 hext hover
      · rw [wrapGo]
        simp only [if_neg hcur]
        rw [if_pos ?cond2]
        case cond2 =>
          exact ⟨lt_of_lt_of_le hover (hext (cur ++ " ") w).2, hcur⟩
        exact List.mem_cons_of_mem cur
          (wrapGo_overflow_head measure maxWidth ws w hw1 hext hover)
    · rw [wrapGo]
      split
      · split
        · exact List.mem_cons_of_mem _ (ih hws2 w1 w hmem hover)
        · exact ih hws2 _ w hmem hover
      · split
        · exact List.mem_cons_of_mem _ (ih hws2 w1 w hmem hover)
        · exact ih hws2 _ w hmem hover

/-- C8 counterexample: on the input `"a  b"` (double space) with a
generous max width, `wrapText` returns the single line `"a  b"`, whose
single-space join is the original text, *not* the whitespace-normalized
text `"a b"`. -/
theorem wrapText_round_trip_cex :
    wrapText (fun s => (s.length : ℚ)) "a  b" 100 = ["a  b"] ∧
    normalizeSpaces "a  b" = "a b" ∧
    strJoin ' ' (wrapText (fun s => (s.length : ℚ)) "a  b" 100) ≠
      normalizeSpaces "a  b" := by
  refine ⟨?_, ?_, ?_⟩ <;> decide

/-- C8 amended: for text that is already whitespace-normalized with
respect to spaces (every word of the space-split is non-empty),
concatenating the lines returned by `wrapText` with single spaces
reproduces the (normalized) text; and — for a measure that is monotone
under string extension — any single word measuring wider than `maxWidth`
appears alone as one of the returned lines. -/
theorem wrapText_round_trip (measure : String → ℚ) (maxWidth : ℚ) (text : String)
    (hext : ∀ a b : String, measure a ≤ measure (a ++ b) ∧ measure b ≤ measure (a ++ b))
    (hwords : ∀ w ∈ strSplit ' ' text, w ≠ "") :
    strJoin ' ' (wrapText measure text maxWidth) = normalizeSpaces text ∧
    (∀ w ∈ strSplit ' ' text, maxWidth < measure w →
      w ∈ wrapText measure text maxWidth) := by
  have hnn : strSplit ' ' text ≠ [] := by
    rw [strSplit]
    intro h
    exact chSplit_ne_nil ' ' text.data (List.map_eq_nil.mp h)
  obtain ⟨w, ws, hsw⟩ := List.exists_cons_of_ne_nil hnn
  have hw : w ≠ "" := hwords w (hsw ▸ List.mem_cons_self _ _)
  have hws2 : ∀ x ∈ ws, x ≠ "" := fun x hx => hwords x (hsw ▸ List.mem_cons_of_mem _ hx)
  have hunfold : wrapText measure text maxWidth = wrapGo measure maxWidth ws w := by
    rw [wrapText, hsw]
    simp [wrapGo]
  constructor
  · rw [hunfold, wrapGo_join measure maxWidth ws w hw hws2, normalizeSpaces, hsw]
    congr 1
    symm
    apply List.filter_eq_self.mpr
    intro a ha
    simpa using hwords a (hsw ▸ ha)
  · intro x hx hover
    rw [hunfold]
    rw [hsw] at hx
    rcases List.mem_cons.mp hx with heq | hmem
    · subst heq
      exact wrapGo_overflow_head measure maxWidth ws x hw hext hover
    · exact wrapGo_overflow_mem measure maxWidth ws hext hws2 w x hmem hover

/-- C8 witness: string length as the measure, on `"hi there"` with
max width `3` (both words overflow). -/
theorem wrapText_round_trip_witness :
    (∀ a b : String, (fun s => (s.length : ℚ)) a ≤ (fun s => (s.length : ℚ)) (a ++ b) ∧
      (fun s => (s.length : ℚ)) b ≤ (fun s => (s.length : ℚ)) (a ++ b)) ∧
    (∀ w ∈ strSplit ' ' "hi there", w ≠ "") ∧
    (strJoin ' ' (wrapText (fun s => (s.length : ℚ)) "hi there" 3)
        = normalizeSpaces "hi there" ∧
      (∀ w ∈ strSplit ' ' "hi there", (3 : ℚ) < (w.length : ℚ) →
        w ∈ wrapText (fun s => (s.length : ℚ)) "hi there" 3)) := by
  have hext : ∀ a b : String, (fun s => (s.length : ℚ)) a ≤ (fun s => (s.length : ℚ)) (a ++ b) ∧
      (fun s => (s.length : ℚ)) b ≤ (fun s => (s.length : ℚ)) (a ++ b) := by
    intro a b
    constructor
    · simp only
      rw [String.length_append a b]
      exact_mod_cast Nat.le_add_right a.length b.length
    · simp only
      rw [String.length_append a b]
      exact_mod_cast Nat.le_add_left b.length a.length
  have hwords : ∀ w ∈ strSplit ' ' "hi there", w ≠ "" := by decide
  exact ⟨hext, hwords, wrapText_round_trip (fun s => (s.length : ℚ)) 3 "hi there" hext hwords⟩

theorem shrinkSearch_induction (fits : ℚ → Bool) (motive : ℚ → Prop)
    (h1 : ∀ s, ¬10 < s → motive s)
    (h2 : ∀ s, 10 < s → fits s = true → motive s)
    (h3 : ∀ s, 10 < s → fits s = false → motive (s - 1) → motive s) :
    ∀ s, motive s := by
  have key : ∀ n : Nat, ∀ s : ℚ, (⌈s - 10⌉).toNat ≤ n → motive s := by
    intro n
    induction n with
    | zero =>
      intro s hs
      apply h1
      intro hlt
      have : 1 ≤ ⌈s - 10⌉ := Int.ceil_pos.mpr (by linarith)
      omega
    | succ n ih =>
      intro s hs
      by_cases hlt : 10 < s
      · cases hf : fits s with
        | true => exact h2 s hlt hf
        | false =>
          apply h3 s hlt hf
          apply ih
          have hc : ⌈s - 1 - 10⌉ = ⌈s - 10⌉ - 1 := by
            rw [show s - 1 - 10 = s - 10 - 1 by ring, Int.ceil_sub_one]
          have hpos : 1 ≤ ⌈s - 10⌉ := Int.ceil_pos.mpr (by linarith)
          omega
      · exact h1 s hlt
  exact fun s => key (⌈s - 10⌉).toNat s le_rfl

theorem shrinkSearch_le_self (fits : ℚ → Bool) (s : ℚ) : shrinkSearch fits s ≤ s := by
  induction s using shrinkSearch_induction fits with
  | h1 s h => rw [shrinkSearch, dif_neg h]
  | h2 s h hf => rw [shrinkSearch, dif_pos h, if_pos hf]
  | h3 s h hf ih =>
    rw [shrinkSearch, dif_pos h, if_neg (by simp [hf])]
    linarith

theorem shrinkSearch_fits_of_gt (fits : ℚ → Bool) (s : ℚ)
    (h : 10 < shrinkSearch fits s) : fits (shrinkSearch fits s) = true := by
  induction s using shrinkSearch_induction fits with
  | h1 s hs =>
    rw [shrinkSearch, dif_neg hs] at h ⊢
    exact absurd h hs
  | h2 s hs hf =>
    rw [shrinkSearch, dif_pos hs, if_pos hf] at h ⊢
    exact hf
  | h3 s hs hf ih =>
    rw [shrinkSearch, dif_pos hs, if_neg (by simp [hf])] at h ⊢
    exact ih h

theorem shrinkSearch_mono (fits1 fits2 : ℚ → Bool)
    (himp : ∀ s, fits1 s = true → fits2 s = true) (s : ℚ) :
    shrinkSearch fits1 s ≤ shrinkSearch fits2 s := by
  induction s using shrinkSearch_induction fits1 with
  | h1 s hs =>
    rw [shrinkSearch, dif_neg hs, shrinkSearch, dif_neg hs]
  | h2 s hs hf =>
    rw [shrinkSearch, dif_pos hs, if_pos hf,
      shrinkSearch, dif_pos hs, if_pos (himp s hf)]
  | h3 s hs hf ih =>
    rw [shrinkSearch, dif_pos hs, if_neg (by simp [hf])]
    cases hf2 : fits2 s with
    | true =>
      have h2eq : shrinkSearch fits2 s = s := by
        rw [shrinkSearch, dif_pos hs, if_pos hf2]
      rw [h2eq]
      have := shrinkSearch_le_self fits1 (s - 1)
      linarith
    | false =>
      have h2eq : shrinkSearch fits2 s = shrinkSearch fits2 (s - 1) := by
        rw [shrinkSearch, dif_pos hs, if_neg (by simp [hf2])]
      rw [h2eq]
      exact ih

/-- C7: the shrink-to-fit search of `renderPlayerInformation` is
idempotent (restarting the search from its own result returns the same
font size), monotone (enlarging the max width and max height never
decreases the chosen size — stated under the claim's assumption that the
measured dimensions are monotone in the font size), and never returns a
size below the floor of 10. -/
theorem fontFit_props (measure : ℚ → ℚ × ℚ) (maxW maxH maxW2 maxH2 start : ℚ)
    (hmono : ∀ s t : ℚ, s ≤ t →
      (measure s).1 ≤ (measure t).1 ∧ (measure s).2 ≤ (measure t).2)
    (hW : maxW ≤ maxW2) (hH : maxH ≤ maxH2) :
    fontFit measure maxW maxH (fontFit measure maxW maxH start)
      = fontFit measure maxW maxH start ∧
    fontFit measure maxW maxH start ≤ fontFit measure maxW2 maxH2 start ∧
    10 ≤ fontFit measure maxW maxH start := by
  refine ⟨?_, ?_, le_max_right _ _⟩
  · rw [fontFit, fontFit]
    rcases le_or_lt (shrinkSearch (nameFits measure maxW maxH) start) 10 with hr | hr
    · rw [max_eq_right hr]
      rw [shrinkSearch, dif_neg (by norm_num)]
      exact max_self 10
    · rw [max_eq_left (le_of_lt hr)]
      have hfits := shrinkSearch_fits_of_gt (nameFits measure maxW maxH) start hr
      rw [shrinkSearch, dif_pos hr, if_pos hfits]
      rw [max_eq_left (le_of_lt hr)]
  · rw [fontFit, fontFit]
    apply max_le_max ?_ (le_refl 10)
    apply shrinkSearch_mono
    intro s hf
    simp only [nameFits, Bool.decide_and, Bool.and_eq_true, decide_eq_true_eq] at hf ⊢
    exact ⟨le_trans hf.1 hW, le_trans hf.2 hH⟩

/-- C7 witness: the identity-pair measure, boxes 50→60, start 100. -/
theorem fontFit_props_witness :
    (∀ s t : ℚ, s ≤ t → ((fun u : ℚ => (u, u)) s).1 ≤ ((fun u : ℚ => (u, u)) t).1 ∧
      ((fun u : ℚ => (u, u)) s).2 ≤ ((fun u : ℚ => (u, u)) t).2) ∧
    (50 : ℚ) ≤ 60 ∧ (50 : ℚ) ≤ 60 ∧
    (fontFit (fun u : ℚ => (u, u)) 50 50 (fontFit (fun u : ℚ => (u, u)) 50 50 100)
      = fontFit (fun u : ℚ => (u, u)) 50 50 100 ∧
    fontFit (fun u : ℚ => (u, u)) 50 50 100 ≤ fontFit (fun u : ℚ => (u, u)) 60 60 100 ∧
    10 ≤ fontFit (fun u : ℚ => (u, u)) 50 50 100) := by
  have hmono : ∀ s t : ℚ, s ≤ t →
      ((fun u : ℚ => (u, u)) s).1 ≤ ((fun u : ℚ => (u, u)) t).1 ∧
      ((fun u : ℚ => (u, u)) s).2 ≤ ((fun u : ℚ => (u, u)) t).2 :=
    fun s t h => ⟨h, h⟩
  exact ⟨hmono, by norm_num, by norm_num,
    fontFit_props (fun u : ℚ => (u, u)) 50 50 60 60 100 hmono (by norm_num) (by norm_num)⟩

theorem lvSplit_prefix (pre rest : List Char) (h : ':' ∉ pre) :
    lvSplit (pre ++ ':' :: ' ' :: rest) = some (pre, rest) := by
  induction pre with
  | nil =>
    rw [List.nil_append, lvSplit, if_pos ⟨rfl, rfl⟩]
  | cons c pre ih =>
    have hc : c ≠ ':' := fun he => h (he ▸ List.mem_cons_self c pre)
    have hpre : ':' ∉ pre := fun hm => h (List.mem_cons_of_mem c hm)
    cases hL : pre ++ ':' :: ' ' :: rest with
    | nil => simp at hL
    | cons d rest2 =>
      rw [List.cons_append, hL, lvSplit, if_neg (fun hand => hc hand.1), ← hL, ih hpre]

theorem jsTrim_ne_of_data (s : String) (c : Char) (l : List Char)
    (hd : s.data = c :: l) (hc : wsChar c = false) : jsTrim s ≠ "" := by
  intro h
  have hdata : (jsTrim s).data = ("" : String).data := congrArg String.data h
  have : trimCh s.data = [] := hdata
  rw [hd] at this
  exact trimCh_cons_ne_nil c l hc this

/-- Format, newline-freedom and trim-nonemptiness of one stat line of the
shape `label ++ ": " ++ mid ++ decimal`. -/
theorem stat_line_props (label : String) (mid : List Char) (v : ℤ) (hv : 0 ≤ v)
    (c : Char) (rest : List Char) (hld : label.data = c :: rest) (hc : wsChar c = false)
    (hcol : ':' ∉ label.data) (hnl : '\n' ∉ label.data) (hmidnl : '\n' ∉ mid)
    (s : String) (hs : s.data = label.data ++ ':' :: ' ' :: (mid ++ (intStr v).data)) :
    isLVb s = true ∧ '\n' ∉ s.data ∧ jsTrim s ≠ "" := by
  have hint : (intStr v).data = natChars v.natAbs := by
    rw [intStr, if_neg (not_lt.mpr hv)]
    rfl
  refine ⟨?_, ?_, ?_⟩
  · show (match lvSplit s.data with
      | some (l, v) => decide (l ≠ []) && decide (v ≠ [])
      | none => false) = true
    rw [hs, lvSplit_prefix label.data _ hcol]
    have hlabne : label.data ≠ [] := by rw [hld]; simp
    have hvalne : mid ++ (intStr v).data ≠ [] := by
      rw [hint]
      simp [natChars_ne_nil (v.natAbs)]
    simp [hlabne, hvalne]
  · rw [hs]
    intro hmem
    rcases List.mem_append.mp hmem with hm | hm
    · exact hnl hm
    · simp only [List.mem_cons] at hm
      rcases hm with hm | hm | hm
      · exact absurd hm (by decide)
      · exact absurd hm (by decide)
      · rcases List.mem_append.mp hm with hm | hm
        · exact hmidnl hm
        · rw [hint] at hm
          exact natChars_no_newline _ hm
  · exact jsTrim_ne_of_data s c (rest ++ ':' :: ' ' :: (mid ++ (intStr v).data))
      (by rw [hs, hld, List.cons_append]) hc

theorem value_nonneg (x : ℚ) (m : ℕ) (k : ℤ) (hm : 0 < m) (hk : 0 ≤ k)
    (h0 : 0 ≤ x) (h1 : x < 1) : 0 ≤ ⌊x * (m : ℚ)⌋ + k := by
  have := (floor_mul_range x m hm h0 h1).1
  omega

/-- All six stat lines are `Label: Value` lines, contain no newline, and
survive `trim`. -/
theorem statLines_all_props (r : Nat → ℚ) (b : Nat)
    (hr : ∀ i, 0 ≤ r i ∧ r i < 1) :
    ∀ l ∈ statLines r b, isLVb l = true ∧ '\n' ∉ l.data ∧ jsTrim l ≠ "" := by
  have hnn : ∀ i : Nat, ∀ m : ℕ, 0 < m → ∀ k : ℤ, 0 ≤ k → 0 ≤ ⌊r i * (m : ℚ)⌋ + k :=
    fun i m hm k hk => value_nonneg (r i) m k hm hk (hr i).1 (hr i).2
  intro l hl
  simp only [statLines, List.mem_cons, List.not_mem_nil, or_false] at hl
  rcases hl with rfl | rfl | rfl | rfl | rfl | rfl
  · apply stat_line_props "Games Played" [] (gamesValue r b)
      (hnn b 20 (by norm_num) 15 (by norm_num)) 'G' ("ames Played" : String).data
      (by decide) (by decide) (by decide) (by decide) (by decide)
    rw [String.data_append]
    show ("Games Played: " : String).data ++ (intStr (gamesValue r b)).data = _
    rw [show ("Games Played: " : String).data
        = ("Games Played" : String).data ++ [':', ' '] from by decide]
    simp
  · apply stat_line_props "Batting Average" ['.'] (battingValue r b)
      (hnn (b + 1) 300 (by norm_num) 200 (by norm_num)) 'B' ("atting Average" : String).data
      (by decide) (by decide) (by decide) (by decide) (by decide)
    rw [String.data_append]
    show ("Batting Average: ." : String).data ++ (intStr (battingValue r b)).data = _
    rw [show ("Batting Average: ." : String).data
        = ("Batting Average" : String).data ++ [':', ' ', '.'] from by decide]
    simp
  · apply stat_line_props "Home Runs" [] (homeRunsValue r b)
      (hnn (b + 2) 8 (by norm_num) 2 (by norm_num)) 'H' ("ome Runs" : String).data
      (by decide) (by decide) (by decide) (by decide) (by decide)
    rw [String.data_append]
    show ("Home Runs: " : String).data ++ (intStr (homeRunsValue r b)).data = _
    rw [show ("Home Runs: " : String).data
        = ("Home Runs" : String).data ++ [':', ' '] from by decide]
    simp
  · apply stat_line_props "RBIs" [] (rbisValue r b)
      (hnn (b + 3) 25 (by norm_num) 10 (by norm_num)) 'R' ("BIs" : String).data
      (by decide) (by decide) (by decide) (by decide) (by decide)
    rw [String.data_append]
    show ("RBIs: " : String).data ++ (intStr (rbisValue r b)).data = _
    rw [show ("RBIs: " : String).data = ("RBIs" : String).data ++ [':', ' '] from by decide]
    simp
  · apply stat_line_props "Stolen Bases" [] (stolenBasesValue r b)
      (hnn (b + 4) 10 (by norm_num) 3 (by norm_num)) 'S' ("tolen Bases" : String).data
      (by decide) (by decide) (by decide) (by decide) (by decide)
    rw [String.data_append]
    show ("Stolen Bases: " : String).data ++ (intStr (stolenBasesValue r b)).data = _
    rw [show ("Stolen Bases: " : String).data
        = ("Stolen Bases" : String).data ++ [':', ' '] from by decide]
    simp
  · apply stat_line_props "Fielding %" ['.'] (fieldingValue r b)
      (hnn (b + 5) 100 (by norm_num) 900 (by norm_num)) 'F' ("ielding %" : String).data
      (by decide) (by decide) (by decide) (by decide) (by decide)
    rw [String.data_append]
    show ("Fielding %: ." : String).data ++ (intStr (fieldingValue r b)).data = _
    rw [show ("Fielding %: ." : String).data
        = ("Fielding %" : String).data ++ [':', ' ', '.'] from by decide]
    simp

/-- Splitting the joined stats text recovers exactly the six lines. -/
theorem generatePlayerStats_split (r : Nat → ℚ) (b : Nat)
    (hr : ∀ i, 0 ≤ r i ∧ r i < 1) :
    strSplit '\n' (generatePlayerStats r b) = statLines r b := by
  have hprops := statLines_all_props r b hr
  rw [generatePlayerStats]
  exact strSplit_strJoin _ _ (fun x hx => (hprops x hx).2.1)

/-- The six stat lines at the all-zero stream. -/
theorem statLines_zero : statLines (fun _ => 0) 6 =
    ["Games Played: 15", "Batting Average: .200", "Home Runs: 2",
     "RBIs: 10", "Stolen Bases: 3", "Fielding %: .900"] := by
  have hg : gamesValue (fun _ => (0 : ℚ)) 6 = 15 := by rw [gamesValue]; norm_num
  have hb : battingValue (fun _ => (0 : ℚ)) 6 = 200 := by rw [battingValue]; norm_num
  have hh : homeRunsValue (fun _ => (0 : ℚ)) 6 = 2 := by rw [homeRunsValue]; norm_num
  have hrb : rbisValue (fun _ => (0 : ℚ)) 6 = 10 := by rw [rbisValue]; norm_num
  have hsb : stolenBasesValue (fun _ => (0 : ℚ)) 6 = 3 := by rw [stolenBasesValue]; norm_num
  have hf : fieldingValue (fun _ => (0 : ℚ)) 6 = 900 := by rw [fieldingValue]; norm_num
  rw [statLines, hg, hb, hh, hrb, hsb, hf]
  decide

/-- The six stat lines at the constant-half stream. -/
theorem statLines_half : statLines (fun _ => 1 / 2) 6 =
    ["Games Played: 25", "Batting Average: .350", "Home Runs: 6",
     "RBIs: 22", "Stolen Bases: 8", "Fielding %: .950"] := by
  have hg : gamesValue (fun _ => (1 / 2 : ℚ)) 6 = 25 := by rw [gamesValue]; norm_num
  have hb : battingValue (fun _ => (1 / 2 : ℚ)) 6 = 350 := by rw [battingValue]; norm_num
  have hh : homeRunsValue (fun _ => (1 / 2 : ℚ)) 6 = 6 := by rw [homeRunsValue]; norm_num
  have hrb : rbisValue (fun _ => (1 / 2 : ℚ)) 6 = 22 := by rw [rbisValue]; norm_num
  have hsb : stolenBasesValue (fun _ => (1 / 2 : ℚ)) 6 = 8 := by
    rw [stolenBasesValue]; norm_num
  have hf : fieldingValue (fun _ => (1 / 2 : ℚ)) 6 = 950 := by rw [fieldingValue]; norm_num
  rw [statLines, hg, hb, hh, hrb, hsb, hf]
  decide

/-- The returned stats text at the all-zero stream. -/
theorem playerStats_zero : generatePlayerStats (fun _ => 0) 6 =
    "Games Played: 15\nBatting Average: .200\nHome Runs: 2\nRBIs: 10\nStolen Bases: 3\nFielding %: .900" := by
  rw [generatePlayerStats, statLines_zero]
  decide

/-- The returned stats text at the constant-half stream. -/
theorem playerStats_half : generatePlayerStats (fun _ => 1 / 2) 6 =
    "Games Played: 25\nBatting Average: .350\nHome Runs: 6\nRBIs: 22\nStolen Bases: 8\nFielding %: .950" := by
  rw [generatePlayerStats, statLines_half]
  decide

/-- String append is left-cancellative. -/
theorem strAppend_left_cancel (s t u : String) (h : s ++ t = s ++ u) : t = u := by
  apply String.ext
  have hd := congrArg String.data h
  rw [String.data_append, String.data_append] at hd
  exact List.append_cancel_left hd

theorem intStr_inj_nonneg (a b : ℤ) (ha : 0 ≤ a) (hb : 0 ≤ b)
    (h : intStr a = intStr b) : a = b := by
  rw [intStr, if_neg (not_lt.mpr ha), intStr, if_neg (not_lt.mpr hb)] at h
  have := natStr_injective h
  omega

/-- C5: decode failures never propagate out of `generateCard`: the result
is always `ok` with a 750×1050 front; a texture failure falls back to the
style-dependent gradient; a photo failure draws the placeholder rectangle
in the photo area; an emblem failure contributes no operation at all (no
placeholder), the remaining layers being untouched. -/
theorem generateCard_absorbs_decode_failures (pd : CardPlayerData) (env : RenderEnv) :
    ∃ res, generateCard pd env = Except.ok res ∧
      res.front.width = 750 ∧ res.front.height = 1050 ∧
      (env.texture = none →
        DrawOp.gradientRect 0 0 cardWidth cardHeight
          (fallbackGradientStops (strLower pd.style)) ∈ res.front.ops) ∧
      (env.photo = none →
        DrawOp.fillRect (safeMargin + 10) (safeMargin + 70)
          (cardWidth - 2 * safeMargin - 20) 380 "#ddd" ∈ res.front.ops) ∧
      (env.emblem = none →
        renderTeamInformationOps pd env.emblem = [] ∧
        res.front.ops =
          renderBaseBackground pd env.texture ++
          renderPlayerImageContainerOps ++
          renderPlayerInformationContainerOps ++
          renderPlayerLogoContainerOps ++
          renderPlayerImageOps env.photo ++
          renderPlayerInformationOps pd env.measure) := by
  refine ⟨_, rfl, rfl, rfl, ?_, ?_, ?_⟩
  · intro h
    show _ ∈ buildFrontCard pd env.texture env.photo env.emblem env.measure
    rw [h]
    simp [buildFrontCard, renderBaseBackground]
  · intro h
    show _ ∈ buildFrontCard pd env.texture env.photo env.emblem env.measure
    rw [h]
    simp [buildFrontCard, renderPlayerImageOps]
  · intro h
    have hteam : renderTeamInformationOps pd env.emblem = [] := by
      rw [h, renderTeamInformationOps]
      split <;> rfl
    refine ⟨hteam, ?_⟩
    show buildFrontCard pd env.texture env.photo env.emblem env.measure = _
    rw [buildFrontCard, hteam]
    simp

/-- C5 witness: all three decodes fail. -/
theorem generateCard_absorbs_decode_failures_witness :
    ∃ res, generateCard alexPd failEnv = Except.ok res ∧
      res.front.width = 750 ∧ res.front.height = 1050 ∧
      DrawOp.gradientRect 0 0 cardWidth cardHeight
        (fallbackGradientStops (strLower alexPd.style)) ∈ res.front.ops ∧
      DrawOp.fillRect (safeMargin + 10) (safeMargin + 70)
        (cardWidth - 2 * safeMargin - 20) 380 "#ddd" ∈ res.front.ops ∧
      renderTeamInformationOps alexPd failEnv.emblem = [] := by
  obtain ⟨res, h1, h2, h3, h4, h5, h6⟩ :=
    generateCard_absorbs_decode_failures alexPd failEnv
  exact ⟨res, h1, h2, h3, h4 rfl, h5 rfl, (h6 rfl).1⟩

/-- C3 counterexample: identical `PlayerData` and style, identical decode
outcomes, but two different random streams — the two `generateCard`
results differ (already in their stats text), so identical inputs do not
by themselves guarantee identical output. -/
theorem generateCard_identical_inputs_cex :
    ∃ r1 r2 : ClientCardResult,
      generateCard alexPd (alexEnv fun _ => 0) = Except.ok r1 ∧
      generateCard alexPd (alexEnv fun _ => 1 / 2) = Except.ok r2 ∧
      r1.playerStats ≠ r2.playerStats := by
  refine ⟨_, _, rfl, rfl, ?_⟩
  show generatePlayerStats (alexEnv fun _ => 0).rand 6 ≠
    generatePlayerStats (alexEnv fun _ => 1 / 2).rand 6
  show generatePlayerStats (fun _ => 0) 6 ≠ generatePlayerStats (fun _ => 1 / 2) 6
  rw [playerStats_zero, playerStats_half]
  decide

/-- C3 amended: `generateCard` is deterministic given the player data,
style, decode outcomes, text measure *and* random draws; with equal
inputs but unconstrained random draws, the front faces are still
identical (the front build never reads the random stream), while the back
face and stats text may differ. -/
theorem generateCard_deterministic (pd : CardPlayerData) (env1 env2 : RenderEnv)
    (ht : env1.texture = env2.texture) (hp : env1.photo = env2.photo)
    (he : env1.emblem = env2.emblem) (hm : env1.measure = env2.measure) :
    ∃ r1 r2, generateCard pd env1 = Except.ok r1 ∧ generateCard pd env2 = Except.ok r2 ∧
      r1.front = r2.front ∧
      (env1.rand = env2.rand → r1 = r2) := by
  refine ⟨_, _, rfl, rfl, ?_, ?_⟩
  · show Surface.mk cardWidth cardHeight
        (buildFrontCard pd env1.texture env1.photo env1.emblem env1.measure) = _
    rw [ht, hp, he, hm]
  · intro hr
    show ClientCardResult.mk _ _ _ = ClientCardResult.mk _ _ _
    rw [ht, hp, he, hm, hr]

/-- C3 witness: the two environments coincide entirely. -/
theorem generateCard_deterministic_witness :
    ((alexEnv fun _ => 0).texture = (alexEnv fun _ => 0).texture ∧
      (alexEnv fun _ => 0).photo = (alexEnv fun _ => 0).photo ∧
      (alexEnv fun _ => 0).emblem = (alexEnv fun _ => 0).emblem ∧
      (alexEnv fun _ => 0).measure = (alexEnv fun _ => 0).measure) ∧
    ∃ r1 r2, generateCard alexPd (alexEnv fun _ => 0) = Except.ok r1 ∧
      generateCard alexPd (alexEnv fun _ => 0) = Except.ok r2 ∧
      r1.front = r2.front ∧
      ((alexEnv fun _ => 0).rand = (alexEnv fun _ => 0).rand → r1 = r2) :=
  ⟨⟨rfl, rfl, rfl, rfl⟩,
    generateCard_deterministic alexPd (alexEnv fun _ => 0) (alexEnv fun _ => 0)
      rfl rfl rfl rfl⟩

/-- C4 counterexample: in the Alex Johnson scenario the returned stats
block has **six** `Label: Value` lines and no trailing bio text — not
five lines followed by a bio. -/
theorem generateCard_scenario_cex :
    ∃ res, generateCard alexPd (alexEnv fun _ => 0) = Except.ok res ∧
      res.playerStats =
        "Games Played: 15\nBatting Average: .200\nHome Runs: 2\nRBIs: 10\nStolen Bases: 3\nFielding %: .900" ∧
      ((strSplit '\n' res.playerStats).filter fun l => isLVb l).length = 6 ∧
      ¬((strSplit '\n' res.playerStats).filter fun l => isLVb l).length = 5 := by
  have hstats : generatePlayerStats (alexEnv fun _ => 0).rand 6 =
      "Games Played: 15\nBatting Average: .200\nHome Runs: 2\nRBIs: 10\nStolen Bases: 3\nFielding %: .900" :=
    playerStats_zero
  refine ⟨_, rfl, hstats, ?_, ?_⟩ <;> rw [show
      ({ front := ⟨cardWidth, cardHeight,
            buildFrontCard alexPd (alexEnv fun _ => 0).texture (alexEnv fun _ => 0).photo
              (alexEnv fun _ => 0).emblem (alexEnv fun _ => 0).measure⟩
         back := ⟨cardWidth, cardHeight,
            buildBackCard alexPd (alexEnv fun _ => 0).measure (alexEnv fun _ => 0).rand⟩
         playerStats := generatePlayerStats (alexEnv fun _ => 0).rand 6 } :
        ClientCardResult).playerStats = _ from hstats] <;> decide

/-- C4 amended: in the Alex Johnson scenario (400×600 photo, 200×200
emblem, style `"modern"`, in-range random draws), `generateCard` returns
two 750×1050 images and a stats block of exactly **six** lines, each of
the form `Label: Value`, with no bio text after them. -/
theorem generateCard_scenario_format (env : RenderEnv) (ip ie : Nat)
    (hr : ∀ i, 0 ≤ env.rand i ∧ env.rand i < 1)
    (hp : env.photo = some ⟨400, 600, ip⟩) (he : env.emblem = some ⟨200, 200, ie⟩) :
    ∃ res, generateCard alexPd env = Except.ok res ∧
      res.front.width = 750 ∧ res.front.height = 1050 ∧
      res.back.width = 750 ∧ res.back.height = 1050 ∧
      (strSplit '\n' res.playerStats).length = 6 ∧
      (∀ l ∈ strSplit '\n' res.playerStats, isLVb l = true) := by
  refine ⟨_, rfl, rfl, rfl, rfl, rfl, ?_, ?_⟩
  · show (strSplit '\n' (generatePlayerStats env.rand 6)).length = 6
    rw [generatePlayerStats_split env.rand 6 hr]
    rfl
  · intro l hl
    have hl2 : l ∈ strSplit '\n' (generatePlayerStats env.rand 6) := hl
    rw [generatePlayerStats_split env.rand 6 hr] at hl2
    exact (statLines_all_props env.rand 6 hr l hl2).1

/-- C4 witness for the amended scenario theorem. -/
theorem generateCard_scenario_format_witness :
    (∀ i, 0 ≤ (alexEnv fun _ => 0).rand i ∧ (alexEnv fun _ => 0).rand i < 1) ∧
    (alexEnv fun _ => 0).photo = some ⟨400, 600, 2⟩ ∧
    (alexEnv fun _ => 0).emblem = some ⟨200, 200, 3⟩ ∧
    ∃ res, generateCard alexPd (alexEnv fun _ => 0) = Except.ok res ∧
      res.front.width = 750 ∧ res.front.height = 1050 ∧
      res.back.width = 750 ∧ res.back.height = 1050 ∧
      (strSplit '\n' res.playerStats).length = 6 ∧
      (∀ l ∈ strSplit '\n' res.playerStats, isLVb l = true) := by
  have hr : ∀ i, 0 ≤ (alexEnv fun _ => 0).rand i ∧ (alexEnv fun _ => 0).rand i < 1 :=
    fun i => ⟨le_refl 0, by norm_num [alexEnv]⟩
  exact ⟨hr, rfl, rfl,
    generateCard_scenario_format (alexEnv fun _ => 0) 2 3 hr rfl rfl⟩

/-- C10: one `generateCard` call draws two independent stats samples —
the back face paints the lines of a sample at stream offsets 0–5 while
the returned stats text is a second sample at offsets 6–11 — and the two
coincide exactly when the six sampled values coincide. -/
theorem generateCard_two_stat_samples (pd : CardPlayerData) (env : RenderEnv)
    (hr : ∀ i, 0 ≤ env.rand i ∧ env.rand i < 1) :
    ∃ res, generateCard pd env = Except.ok res ∧
      res.playerStats = generatePlayerStats env.rand 6 ∧
      backPaintedStatLines env.rand = statLines env.rand 0 ∧
      (statLines env.rand 0 = statLines env.rand 6 ↔
        (gamesValue env.rand 0 = gamesValue env.rand 6 ∧
         battingValue env.rand 0 = battingValue env.rand 6 ∧
         homeRunsValue env.rand 0 = homeRunsValue env.rand 6 ∧
         rbisValue env.rand 0 = rbisValue env.rand 6 ∧
         stolenBasesValue env.rand 0 = stolenBasesValue env.rand 6 ∧
         fieldingValue env.rand 0 = fieldingValue env.rand 6)) := by
  have hnn : ∀ i : Nat, ∀ m : ℕ, 0 < m → ∀ k : ℤ, 0 ≤ k → 0 ≤ ⌊env.rand i * (m : ℚ)⌋ + k :=
    fun i m hm k hk => value_nonneg (env.rand i) m k hm hk (hr i).1 (hr i).2
  refine ⟨_, rfl, rfl, ?_, ?_⟩
  · rw [backPaintedStatLines, generatePlayerStats_split env.rand 0 hr]
    rw [List.filter_eq_self.mpr ?all]
    case all =>
      intro l hl
      simpa using (statLines_all_props env.rand 0 hr l hl).2.2
    exact List.take_of_length_le (by simp [statLines])
  · constructor
    · intro h
      simp only [statLines, List.cons.injEq, and_true] at h
      obtain ⟨h1, h2, h3, h4, h5, h6⟩ := h
      refine ⟨?_, ?_, ?_, ?_, ?_, ?_⟩
      · exact intStr_inj_nonneg _ _ (hnn 0 20 (by norm_num) 15 (by norm_num))
          (hnn 6 20 (by norm_num) 15 (by norm_num))
          (strAppend_left_cancel "Games Played: " _ _ h1)
      · exact intStr_inj_nonneg _ _ (hnn 1 300 (by norm_num) 200 (by norm_num))
          (hnn 7 300 (by norm_num) 200 (by norm_num))
          (strAppend_left_cancel "Batting Average: ." _ _ h2)
      · exact intStr_inj_nonneg _ _ (hnn 2 8 (by norm_num) 2 (by norm_num))
          (hnn 8 8 (by norm_num) 2 (by norm_num))
          (strAppend_left_cancel "Home Runs: " _ _ h3)
      · exact intStr_inj_nonneg _ _ (hnn 3 25 (by norm_num) 10 (by norm_num))
          (hnn 9 25 (by norm_num) 10 (by norm_num))
          (strAppend_left_cancel "RBIs: " _ _ h4)
      · exact intStr_inj_nonneg _ _ (hnn 4 10 (by norm_num) 3 (by norm_num))
          (hnn 10 10 (by norm_num) 3 (by norm_num))
          (strAppend_left_cancel "Stolen Bases: " _ _ h5)
      · exact intStr_inj_nonneg _ _ (hnn 5 100 (by norm_num) 900 (by norm_num))
          (hnn 11 100 (by norm_num) 900 (by norm_num))
          (strAppend_left_cancel "Fielding %: ." _ _ h6)
    · rintro ⟨h1, h2, h3, h4, h5, h6⟩
      rw [statLines, statLines, h1, h2, h3, h4, h5, h6]

/-- C10 witness at the all-zero stream (the two samples coincide there,
and the equivalence confirms it through the equal values). -/
theorem generateCard_two_stat_samples_witness :
    (∀ i, 0 ≤ (alexEnv fun _ => 0).rand i ∧ (alexEnv fun _ => 0).rand i < 1) ∧
    ∃ res, generateCard alexPd (alexEnv fun _ => 0) = Except.ok res ∧
      res.playerStats = generatePlayerStats (alexEnv fun _ => 0).rand 6 ∧
      backPaintedStatLines (alexEnv fun _ => 0).rand
        = statLines (alexEnv fun _ => 0).rand 0 ∧
      (statLines (alexEnv fun _ => 0).rand 0 = statLines (alexEnv fun _ => 0).rand 6 ↔
        (gamesValue (alexEnv fun _ => 0).rand 0 = gamesValue (alexEnv fun _ => 0).rand 6 ∧
         battingValue (alexEnv fun _ => 0).rand 0
           = battingValue (alexEnv fun _ => 0).rand 6 ∧
         homeRunsValue (alexEnv fun _ => 0).rand 0
           = homeRunsValue (alexEnv fun _ => 0).rand 6 ∧
         rbisValue (alexEnv fun _ => 0).rand 0 = rbisValue (alexEnv fun _ => 0).rand 6 ∧
         stolenBasesValue (alexEnv fun _ => 0).rand 0
           = stolenBasesValue (alexEnv fun _ => 0).rand 6 ∧
         fieldingValue (alexEnv fun _ => 0).rand 0
           = fieldingValue (alexEnv fun _ => 0).rand 6)) := by
  have hr : ∀ i, 0 ≤ (alexEnv fun _ => 0).rand i ∧ (alexEnv fun _ => 0).rand i < 1 :=
    fun i => ⟨le_refl 0, by norm_num [alexEnv]⟩
  exact ⟨hr, generateCard_two_stat_samples alexPd (alexEnv fun _ => 0) hr⟩

/-- C1 witness at a concrete 400×600 source image. -/
theorem renderPlayerImage_coverFit_witness :
    (0 : ℚ) < 400 ∧ (0 : ℚ) < 600 ∧
    ((renderPlayerImageDrawRect 400 600).w / (renderPlayerImageDrawRect 400 600).h
        = (400 : ℚ) / 600 ∧
      (renderPlayerImageDrawRect 400 600).x ≤ imageBox.x ∧
      imageBox.x + imageBox.w ≤
        (renderPlayerImageDrawRect 400 600).x + (renderPlayerImageDrawRect 400 600).w ∧
      (renderPlayerImageDrawRect 400 600).y ≤ imageBox.y ∧
      imageBox.y + imageBox.h ≤
        (renderPlayerImageDrawRect 400 600).y + (renderPlayerImageDrawRect 400 600).h ∧
      (imageBox.w / imageBox.h < (400 : ℚ) / 600 →
        (renderPlayerImageDrawRect 400 600).h = imageBox.h ∧
        (renderPlayerImageDrawRect 400 600).x
          = imageBox.x + (imageBox.w - (renderPlayerImageDrawRect 400 600).w) / 2) ∧
      (¬ imageBox.w / imageBox.h < (400 : ℚ) / 600 →
        (renderPlayerImageDrawRect 400 600).w = imageBox.w ∧
        (renderPlayerImageDrawRect 400 600).y
          = imageBox.y + (imageBox.h - (renderPlayerImageDrawRect 400 600).h) / 2)) :=
  ⟨by norm_num, by norm_num, renderPlayerImage_coverFit 400 600 (by norm_num) (by norm_num)⟩

end CardGen
